import Mathlib

/-!
Shallow embedding of src/DCCpp_Uno/Sensor.cpp (DCC++ BASE STATION sensor
registry) and proofs of the specification's claims about it.

The linked list headed by Sensor::firstSensor is modelled as a
List Sensor in head-to-tail order.  Serial output is modelled as a list
of emitted tokens (each Serial.print group that forms one protocol token,
such as "<X>", "<O>" or a "<Q...>" message, is one list element).  The
float field Sensor.signal is modelled over the rationals, giving the
exact real-number semantics of the smoothing arithmetic.  calloc is
modelled by an explicit allocation-success flag.  digitalRead is an
oracle of type Int -> Bool (true = electrically HIGH).
-/

namespace BaseStation

/-- Arduino constant LOW. -/
def LOW : Int := 0

/-- Arduino constant HIGH. -/
def HIGH : Int := 1

/-- struct SensorData: the persisted part of a sensor (Sensor.h, used
throughout Sensor.cpp as tt->data). -/
structure SensorData where
  snum : Int
  pin : Int
  pullUp : Int
deriving DecidableEq, Repr

/-- The runtime Sensor node: its persisted data plus the debounce filter
state (float signal, bool active).  The nextSensor pointer is represented
by the position in the surrounding list. -/
structure Sensor where
  data : SensorData
  signal : ℚ
  active : Bool
deriving DecidableEq, Repr

/-- Registry state: the chain hanging off Sensor::firstSensor. -/
abbrev Registry := List Sensor

/-- Sensor::get(int n): linear scan for the first node whose data.snum
equals n (Sensor.cpp lines 108-112). -/
def get (r : Registry) (n : Int) : Option Sensor :=
  r.find? (fun s => s.data.snum == n)

/-- The node state written by Sensor::create on success (Sensor.cpp lines
92-96): data fields from the arguments, with pullUp stored as
(pullUp==0 ? LOW : HIGH), active=false, signal=1. -/
def mkSensor (snum pin pullUp : Int) : Sensor :=
  { data := { snum := snum, pin := pin, pullUp := if pullUp = 0 then LOW else HIGH },
    signal := 1, active := false }

/-- Replace the first node whose id matches n by t, keeping the chain
otherwise intact: the in-place overwrite performed by Sensor::create when
get(snum) finds an existing node. -/
def setFirst (r : Registry) (n : Int) (t : Sensor) : Registry :=
  match r with
  | [] => []
  | s :: rest => if s.data.snum == n then t :: rest else s :: setFirst rest n t

/-- Result of Sensor::create: the new registry, the returned pointer
(none models NULL), the serial tokens printed, and the hardware
configuration calls performed (pin, value written by digitalWrite). -/
structure CreateResult where
  reg : Registry
  ret : Option Sensor
  out : List String
  hw : List (Int × Int)
deriving DecidableEq, Repr

/-- Sensor::create(int snum, int pin, int pullUp, int v)
(Sensor.cpp lines 72-104), with calloc success modelled by `alloc`.
Control flow: if the list is empty a fresh node becomes firstSensor;
else if get(snum) finds nothing a fresh node is appended at the tail;
else the node found by get(snum) is reused (overwritten in place).
If the needed allocation failed (tt==NULL) print "<X>" when v==1 and
return NULL; otherwise write the fields, configure the pin
(pinMode INPUT, digitalWrite pullUp), print "<O>" when v==1 and return
the node. -/
def createA (alloc : Bool) (r : Registry) (snum pin pullUp v : Int) : CreateResult :=
  if r = [] then
    if alloc then
      { reg := [mkSensor snum pin pullUp], ret := some (mkSensor snum pin pullUp),
        out := if v = 1 then ["<O>"] else [], hw := [(pin, pullUp)] }
    else
      { reg := r, ret := none, out := if v = 1 then ["<X>"] else [], hw := [] }
  else if get r snum = none then
    if alloc then
      { reg := r ++ [mkSensor snum pin pullUp], ret := some (mkSensor snum pin pullUp),
        out := if v = 1 then ["<O>"] else [], hw := [(pin, pullUp)] }
    else
      { reg := r, ret := none, out := if v = 1 then ["<X>"] else [], hw := [] }
  else
    { reg := setFirst r snum (mkSensor snum pin pullUp), ret := some (mkSensor snum pin pullUp),
      out := if v = 1 then ["<O>"] else [], hw := [(pin, pullUp)] }

/-- Sensor::create with calloc succeeding (the normal case). -/
def create (r : Registry) (snum pin pullUp v : Int) : CreateResult :=
  createA true r snum pin pullUp v

/-- Sensor::remove(int n) (Sensor.cpp lines 115-133): unlink and free the
first node whose id is n and print "<O>"; if none is found print "<X>"
and leave the chain untouched. -/
def remove (r : Registry) (n : Int) : Registry × List String :=
  match r with
  | [] => ([], ["<X>"])
  | s :: rest =>
    if s.data.snum == n then (rest, ["<O>"])
    else
      let p := remove rest n
      (s :: p.1, p.2)

/-- One debounce step for one node: the body of the loop in
Sensor::check (Sensor.cpp lines 55-65).  SENSOR_DECAY is the parameter d:
it is defined in Sensor.h, which is not part of the sources; the spec
describes it only as a fixed smoothing constant in (0,1), so it stays a
parameter here.  read models digitalRead (true = HIGH = 1, false = LOW
= 0). -/
def checkOne (d : ℚ) (read : Int → Bool) (s : Sensor) : Sensor × List String :=
  let sig := s.signal * (1 - d) + (if read s.data.pin then 1 else 0) * d
  if !s.active && sig < 1/2 then
    ({ s with signal := sig, active := true },
     ["<Q" ++ toString s.data.snum ++ ">"])
  else if s.active && sig > 99/100 then
    ({ s with signal := sig, active := false }, [])
  else
    ({ s with signal := sig }, [])

/-- Sensor::check() (Sensor.cpp lines 52-68): one tick over the whole
chain, in list order, collecting the serial tokens printed. -/
def check (d : ℚ) (read : Int → Bool) (r : Registry) : Registry × List String :=
  match r with
  | [] => ([], [])
  | s :: rest =>
    let p := checkOne d read s
    let q := check d read rest
    (p.1 :: q.1, p.2 ++ q.2)

/-- Sensor::show() (Sensor.cpp lines 137-154): print "<X>" when the
chain is empty, else one "<Q snum pin pullUp>" token per node in chain
order.  The loop never writes to any node, so the registry is returned
unchanged.  (`show` is a Lean keyword, hence the name.) -/
def showSensors (r : Registry) : Registry × List String :=
  match r with
  | [] => ([], ["<X>"])
  | _ :: _ =>
    (r, r.map (fun s =>
      "<Q" ++ toString s.data.snum ++ " " ++ toString s.data.pin ++ " "
        ++ toString s.data.pullUp ++ ">"))

/-- The integers converted by the leading %d directives: sscanf converts
tokens from the front of the input while they parse as integers and stops
at the first token that does not.  A command string is modelled as its
token list, where `some n` is a token that parses as the integer n and
`none` is a token that does not. -/
def leadingInts : List (Option Int) → List Int
  | some n :: rest => n :: leadingInts rest
  | _ => []

/-- The return value of sscanf(c, "%d %d %d", ...) (modelled libc
semantics): EOF = -1 when the input holds no tokens at all, else the
number of successful leading conversions, at most the 3 directives. -/
def scanCount (toks : List (Option Int)) : Int :=
  match toks with
  | [] => -1
  | _ => min ((leadingInts toks).length : Int) 3

/-- Sensor::parse(char *c) (Sensor.cpp lines 158-180): dispatch on the
sscanf return value.  3 converted integers: create(n,s,m,1); 1: remove(n);
-1 (no arguments): show(); 2: print "<X>".  A return value of 0 matches
no case of the switch, so nothing happens. -/
def parse (r : Registry) (toks : List (Option Int)) : Registry × List String :=
  if scanCount toks = 3 then
    match leadingInts toks with
    | n :: s :: m :: _ =>
      let c := create r n s m 1
      (c.reg, c.out)
    | _ => (r, [])
  else if scanCount toks = 1 then
    match leadingInts toks with
    | n :: _ => remove r n
    | _ => (r, [])
  else if scanCount toks = -1 then
    showSensors r
  else if scanCount toks = 2 then
    (r, ["<X>"])
  else
    (r, [])

/-- Sensor::store() (Sensor.cpp lines 197-209): write every node's data
record to the non-volatile region in chain order and count them into the
shared header (EEStore nSensors).  Returns (region contents, count). -/
def store (r : Registry) : List SensorData × Nat :=
  (r.map (fun s => s.data), r.length)

/-- Sensor::load() (Sensor.cpp lines 184-193): read nSensors records
from the region and call create(snum, pin, pullUp) for each, in order.
Modelled from the spec: the verbosity argument of these create calls is
a defaulted parameter declared in Sensor.h (not in the sources); per the
spec the load path is non-verbose, so 0 is passed.  The registry the
loop starts from is threaded explicitly. -/
def load (r : Registry) (n : Nat) (region : List SensorData) : Registry :=
  match n, region with
  | 0, _ => r
  | _ + 1, [] => r
  | k + 1, rec0 :: rest =>
    load (create r rec0.snum rec0.pin rec0.pullUp 0).reg k rest

/-- enumerate(): the (id, pin, pullupRequested) tuples of the registry in
order, as produced by show()/store(). -/
def enumerate (r : Registry) : List (Int × Int × Int) :=
  r.map (fun s => (s.data.snum, s.data.pin, s.data.pullUp))

/-- The ids of the live nodes, in chain order. -/
def ids (r : Registry) : List Int :=
  r.map (fun s => s.data.snum)

/-- Every live node's pullUp field is one of the two values LOW/HIGH that
Sensor::create ever writes. -/
def pullUpNormalized (r : Registry) : Prop :=
  ∀ s ∈ r, s.data.pullUp = 0 ∨ s.data.pullUp = 1

/-- A registry operation issued by the command dispatcher: a create call
(with the success of its calloc recorded) or a remove call. -/
inductive Op where
  | cre (alloc : Bool) (snum pin pullUp v : Int)
  | rem (n : Int)
deriving DecidableEq, Repr

/-- Effect of one operation on the registry state. -/
def applyOp (r : Registry) : Op → Registry
  | .cre a snum pin pullUp v => (createA a r snum pin pullUp v).reg
  | .rem n => (remove r n).1

/-- Registry state after a sequence of operations starting from the
empty registry (firstSensor == NULL). -/
def run (ops : List Op) : Registry :=
  ops.foldl applyOp []

/-- State of a single sensor node after n scheduler ticks of
Sensor::check, with the pin reads given by the oracle. -/
def ticksState (d : ℚ) (read : Int → Bool) (s : Sensor) : Nat → Sensor
  | 0 => s
  | n + 1 => (checkOne d read (ticksState d read s n)).1

/-- The tokens emitted for a single sensor node during its (n+1)-st tick
(the step from state n to state n+1). -/
def tickOut (d : ℚ) (read : Int → Bool) (s : Sensor) (n : Nat) : List String :=
  (checkOne d read (ticksState d read s n)).2

/-- A step of the whole program as the scheduler and command dispatcher
interleave them: a create call (with the success of its calloc recorded),
a remove call, or one Sensor::check tick of the scheduler loop (with its
pin reads).  Unlike Op this also reaches states whose filter fields are
not the initial {signal = 1.0, active = false}. -/
inductive OpT where
  | cre (alloc : Bool) (snum pin pullUp v : Int)
  | rem (n : Int)
  | chk (d : ℚ) (read : Int → Bool)

/-- Effect of one interleaved step on the registry state. -/
def applyOpT (r : Registry) : OpT → Registry
  | .cre a snum pin pullUp v => (createA a r snum pin pullUp v).reg
  | .rem n => (remove r n).1
  | .chk d read => (check d read r).1

/-- Registry state after a sequence of interleaved steps starting from
the empty registry (firstSensor == NULL): every state the program can
reach. -/
def runT (ops : List OpT) : Registry :=
  ops.foldl applyOpT []

/-! ## Helper lemmas -/

theorem get_eq_none_iff (r : Registry) (n : Int) :
    get r n = none ↔ n ∉ ids r := by
  induction r with
  | nil => simp [get, ids]
  | cons s rest ih =>
    by_cases h : s.data.snum = n
    · simp [get, ids, List.find?, h]
    · have hb : (s.data.snum == n) = false := by simpa using h
      simp only [get, ids, List.find?, hb, List.map_cons, List.mem_cons]
      rw [show rest.find? (fun t => t.data.snum == n) = get rest n from rfl]
      constructor
      · intro hnone hmem
        rcases hmem with hmem | hmem
        · exact h hmem.symm
        · exact (ih.mp hnone) hmem
      · intro hmem
        exact ih.mpr (fun hc => hmem (Or.inr hc))

theorem ids_setFirst (r : Registry) (n : Int) (t : Sensor)
    (ht : t.data.snum = n) : ids (setFirst r n t) = ids r := by
  induction r with
  | nil => rfl
  | cons s rest ih =>
    by_cases h : s.data.snum = n
    · have hb : (s.data.snum == n) = true := by simpa using h
      simp [setFirst, ids, hb, ht, h]
    · have hb : (s.data.snum == n) = false := by simpa using h
      simp only [setFirst, hb, Bool.false_eq_true, if_false, ids, List.map_cons]
      rw [show (setFirst rest n t).map (fun s => s.data.snum) = ids (setFirst rest n t) from rfl,
        ih]
      rfl

theorem setFirst_of_mem (r : Registry) (n : Int) (t : Sensor)
    (h : n ∈ ids r) :
    ∃ l1 e l2, r = l1 ++ e :: l2 ∧ e.data.snum = n ∧ n ∉ ids l1 ∧
      setFirst r n t = l1 ++ t :: l2 := by
  induction r with
  | nil => simp [ids] at h
  | cons s rest ih =>
    by_cases hs : s.data.snum = n
    · have hb : (s.data.snum == n) = true := by simpa using hs
      exact ⟨[], s, rest, rfl, hs, by simp [ids], by simp [setFirst, hb]⟩
    · have hb : (s.data.snum == n) = false := by simpa using hs
      have hmem : n ∈ ids rest := by
        simp only [ids, List.map_cons, List.mem_cons] at h
        rcases h with hc | hc
        · exact absurd hc.symm hs
        · exact hc
      obtain ⟨l1, e, l2, hr, he, hnl1, hset⟩ := ih hmem
      refine ⟨s :: l1, e, l2, by simp [hr], he, ?_, ?_⟩
      · simp only [ids, List.map_cons, List.mem_cons]
        intro hc
        rcases hc with hc | hc
        · exact hs hc.symm
        · exact hnl1 (by simpa [ids] using hc)
      · simp [setFirst, hb, hset]

theorem get_append_of_none (r1 r2 : Registry) (n : Int)
    (h : get r1 n = none) : get (r1 ++ r2) n = get r2 n := by
  induction r1 with
  | nil => rfl
  | cons s rest ih =>
    by_cases hs : s.data.snum = n
    · have hb : (s.data.snum == n) = true := by simpa using hs
      simp [get, List.find?, hb] at h
    · have hb : (s.data.snum == n) = false := by simpa using hs
      simp only [get, List.find?, hb] at h ⊢
      exact ih h

theorem get_cons_self (s : Sensor) (rest : Registry) (h : s.data.snum = n) :
    get (s :: rest) n = some s := by
  have hb : (s.data.snum == n) = true := by simpa using h
  simp [get, List.find?, hb]

theorem get_create_self (r : Registry) (snum pin pullUp v : Int) :
    get (create r snum pin pullUp v).reg snum = some (mkSensor snum pin pullUp) := by
  unfold create createA
  by_cases hnil : r = []
  · simp only [hnil, if_true, if_pos rfl]
    exact get_cons_self _ _ rfl
  · by_cases hget : get r snum = none
    · simp only [hnil, if_false, hget, if_true, if_pos rfl]
      rw [get_append_of_none r _ snum hget]
      exact get_cons_self _ _ rfl
    · have hmem : snum ∈ ids r := by
        by_contra hc
        exact hget ((get_eq_none_iff r snum).mpr hc)
      obtain ⟨l1, e, l2, hr, he, hnl1, hset⟩ :=
        setFirst_of_mem r snum (mkSensor snum pin pullUp) hmem
      simp only [hnil, if_false, hget, ite_false]
      rw [hset, get_append_of_none l1 _ snum ((get_eq_none_iff l1 snum).mpr hnl1)]
      exact get_cons_self _ _ rfl

theorem nodup_ids_createA (a : Bool) (r : Registry) (snum pin pullUp v : Int)
    (h : (ids r).Nodup) : (ids (createA a r snum pin pullUp v).reg).Nodup := by
  unfold createA
  by_cases hnil : r = []
  · cases a <;> simp [hnil, ids, h]
  · by_cases hget : get r snum = none
    · cases a
      · simp [hnil, hget, h]
      · have hmem : snum ∉ ids r := (get_eq_none_iff r snum).mp hget
        simp [hnil, hget, ids, List.nodup_append, mkSensor]
        refine ⟨h, fun x hx hsnum => ?_⟩
        exact hmem (by simpa [ids, hsnum] using List.mem_map_of_mem (fun s => s.data.snum) hx)
    · simp only [hnil, if_false, hget, ite_false]
      rw [ids_setFirst r snum _ rfl]
      exact h

theorem remove_fst_sublist (r : Registry) (n : Int) :
    (remove r n).1.Sublist r := by
  induction r with
  | nil => simp [remove]
  | cons s rest ih =>
    by_cases hs : s.data.snum = n
    · have hb : (s.data.snum == n) = true := by simpa using hs
      simp only [remove, hb, if_true]
      exact List.sublist_cons_self s rest
    · have hb : (s.data.snum == n) = false := by simpa using hs
      simp only [remove, hb, Bool.false_eq_true, if_false]
      exact List.Sublist.cons₂ s ih

theorem nodup_ids_remove (r : Registry) (n : Int)
    (h : (ids r).Nodup) : (ids (remove r n).1).Nodup := by
  have hs := List.Sublist.map (fun s : Sensor => s.data.snum) (remove_fst_sublist r n)
  exact List.Nodup.sublist hs h

theorem remove_of_not_mem (r : Registry) (n : Int) (h : n ∉ ids r) :
    remove r n = (r, ["<X>"]) := by
  induction r with
  | nil => rfl
  | cons s rest ih =>
    simp only [ids, List.map_cons, List.mem_cons] at h
    push_neg at h
    have hb : (s.data.snum == n) = false := by simpa using fun hc => h.1 hc.symm
    have ih2 := ih (by simpa [ids] using h.2)
    simp [remove, hb, ih2]

theorem remove_of_mem (r : Registry) (n : Int) (h : n ∈ ids r) :
    ∃ l1 e l2, r = l1 ++ e :: l2 ∧ e.data.snum = n ∧ n ∉ ids l1 ∧
      remove r n = (l1 ++ l2, ["<O>"]) := by
  induction r with
  | nil => simp [ids] at h
  | cons s rest ih =>
    by_cases hs : s.data.snum = n
    · have hb : (s.data.snum == n) = true := by simpa using hs
      exact ⟨[], s, rest, rfl, hs, by simp [ids], by simp [remove, hb]⟩
    · have hb : (s.data.snum == n) = false := by simpa using hs
      have hmem : n ∈ ids rest := by
        simp only [ids, List.map_cons, List.mem_cons] at h
        rcases h with hc | hc
        · exact absurd hc.symm hs
        · exact hc
      obtain ⟨l1, e, l2, hr, he, hnl1, hrem⟩ := ih hmem
      refine ⟨s :: l1, e, l2, by simp [hr], he, ?_, ?_⟩
      · simp only [ids, List.map_cons, List.mem_cons]
        intro hc
        rcases hc with hc | hc
        · exact hs hc.symm
        · exact hnl1 (by simpa [ids] using hc)
      · simp [remove, hb, hrem]

theorem create_reg_of_not_mem (r : Registry) (snum pin pullUp v : Int)
    (h : snum ∉ ids r) :
    (create r snum pin pullUp v).reg = r ++ [mkSensor snum pin pullUp] := by
  unfold create createA
  by_cases hnil : r = []
  · simp [hnil]
  · simp [hnil, (get_eq_none_iff r snum).mpr h]

theorem create_reg_of_mem (r : Registry) (snum pin pullUp v : Int)
    (h : snum ∈ ids r) :
    ∃ l1 e l2, r = l1 ++ e :: l2 ∧ e.data.snum = snum ∧ snum ∉ ids l1 ∧
      (create r snum pin pullUp v).reg = l1 ++ mkSensor snum pin pullUp :: l2 := by
  have hnil : r ≠ [] := by
    intro hc
    rw [hc] at h
    simp [ids] at h
  have hget : get r snum ≠ none := by
    intro hc
    exact (get_eq_none_iff r snum).mp hc h
  obtain ⟨l1, e, l2, hr, he, hnl1, hset⟩ := setFirst_of_mem r snum (mkSensor snum pin pullUp) h
  refine ⟨l1, e, l2, hr, he, hnl1, ?_⟩
  unfold create createA
  simp [hnil, hget, hset]

theorem ids_create_of_mem (r : Registry) (snum pin pullUp v : Int)
    (h : snum ∈ ids r) :
    ids (create r snum pin pullUp v).reg = ids r := by
  have hnil : r ≠ [] := by
    intro hc
    rw [hc] at h
    simp [ids] at h
  have hget : get r snum ≠ none := by
    intro hc
    exact (get_eq_none_iff r snum).mp hc h
  unfold create createA
  simp only [hnil, if_false, hget, ite_false]
  exact ids_setFirst r snum _ rfl

theorem mem_setFirst (r : Registry) (n : Int) (t x : Sensor) :
    x ∈ setFirst r n t → x = t ∨ x ∈ r := by
  induction r with
  | nil => intro h; simp [setFirst] at h
  | cons s rest ih =>
    intro h
    by_cases hs : (s.data.snum == n) = true
    · simp only [setFirst, hs, if_true, List.mem_cons] at h
      rcases h with h | h
      · exact Or.inl h
      · exact Or.inr (List.mem_cons_of_mem s h)
    · simp only [setFirst, hs, Bool.false_eq_true, if_false, List.mem_cons] at h
      rcases h with h | h
      · exact Or.inr (by simp [h])
      · rcases ih h with h2 | h2
        · exact Or.inl h2
        · exact Or.inr (List.mem_cons_of_mem s h2)

theorem mkSensor_pullUp_norm (snum pin pullUp : Int) :
    (mkSensor snum pin pullUp).data.pullUp = 0 ∨ (mkSensor snum pin pullUp).data.pullUp = 1 := by
  by_cases h : pullUp = 0
  · exact Or.inl (by simp [mkSensor, LOW, h])
  · exact Or.inr (by simp [mkSensor, HIGH, h])

theorem pullUpNormalized_createA (a : Bool) (r : Registry) (snum pin pullUp v : Int)
    (h : pullUpNormalized r) : pullUpNormalized (createA a r snum pin pullUp v).reg := by
  unfold createA
  by_cases hnil : r = []
  · cases a
    · simpa [hnil] using h
    · intro x hx
      simp [hnil] at hx
      simpa [hx] using mkSensor_pullUp_norm snum pin pullUp
  · by_cases hget : get r snum = none
    · cases a
      · simpa [hnil, hget] using h
      · intro x hx
        simp only [hnil, if_false, hget, if_true, ite_true, List.mem_append,
          List.mem_singleton] at hx
        rcases hx with hx | hx
        · exact h x hx
        · simpa [hx] using mkSensor_pullUp_norm snum pin pullUp
    · intro x hx
      simp only [hnil, if_false, hget, ite_false] at hx
      rcases mem_setFirst _ _ _ _ hx with hx2 | hx2
      · simpa [hx2] using mkSensor_pullUp_norm snum pin pullUp
      · exact h x hx2

theorem pullUpNormalized_remove (r : Registry) (n : Int)
    (h : pullUpNormalized r) : pullUpNormalized (remove r n).1 :=
  fun x hx => h x ((remove_fst_sublist r n).mem hx)

theorem foldl_applyOp_inv (ops : List Op) : ∀ r : Registry,
    (ids r).Nodup ∧ pullUpNormalized r →
    (ids (ops.foldl applyOp r)).Nodup ∧ pullUpNormalized (ops.foldl applyOp r) := by
  induction ops with
  | nil => exact fun r h => h
  | cons op rest ih =>
    intro r h
    refine ih (applyOp r op) ?_
    cases op with
    | cre a snum pin pullUp v =>
      exact ⟨nodup_ids_createA a r snum pin pullUp v h.1,
        pullUpNormalized_createA a r snum pin pullUp v h.2⟩
    | rem n =>
      exact ⟨nodup_ids_remove r n h.1, pullUpNormalized_remove r n h.2⟩

theorem run_nodup_norm (ops : List Op) :
    (ids (run ops)).Nodup ∧ pullUpNormalized (run ops) :=
  foldl_applyOp_inv ops [] ⟨by simp [ids], fun x hx => by simp at hx⟩

theorem load_append (recs : List SensorData) : ∀ acc : Registry,
    (∀ dr ∈ recs, dr.snum ∉ ids acc) →
    (recs.map (fun dr => dr.snum)).Nodup →
    load acc recs.length recs =
      acc ++ recs.map (fun dr => mkSensor dr.snum dr.pin dr.pullUp) := by
  induction recs with
  | nil => intro acc _ _; simp [load]
  | cons d rest ih =>
    intro acc hdisj hnd
    have hd : d.snum ∉ ids acc := hdisj d (List.mem_cons_self d rest)
    have hstep : (create acc d.snum d.pin d.pullUp 0).reg = acc ++ [mkSensor d.snum d.pin d.pullUp] :=
      create_reg_of_not_mem acc d.snum d.pin d.pullUp 0 hd
    have hnd2 : (rest.map (fun dr => dr.snum)).Nodup := (List.nodup_cons.mp hnd).2
    have hhead : d.snum ∉ rest.map (fun dr => dr.snum) := (List.nodup_cons.mp hnd).1
    have hdisj2 : ∀ dr ∈ rest, dr.snum ∉ ids (acc ++ [mkSensor d.snum d.pin d.pullUp]) := by
      intro dr hdr
      simp only [ids, List.map_append, List.mem_append, List.map_cons, List.map_nil,
        List.mem_singleton, mkSensor]
      intro hc
      rcases hc with hc | hc
      · exact hdisj dr (List.mem_cons_of_mem d hdr) (by simpa [ids] using hc)
      · exact hhead (by simpa [hc] using List.mem_map_of_mem (fun dr => dr.snum) hdr)
    have h1 : load acc (d :: rest).length (d :: rest)
        = load (acc ++ [mkSensor d.snum d.pin d.pullUp]) rest.length rest := by
      show load acc (rest.length + 1) (d :: rest)
          = load (acc ++ [mkSensor d.snum d.pin d.pullUp]) rest.length rest
      simp only [load]
      rw [hstep]
    rw [h1, ih _ hdisj2 hnd2]
    simp

theorem checkOne_cases (d : ℚ) (read : Int → Bool) (s : Sensor) :
    checkOne d read s =
      (if s.active = false ∧ s.signal * (1 - d) + (if read s.data.pin then 1 else 0) * d < 1/2
       then { s with
              signal := s.signal * (1 - d) + (if read s.data.pin then 1 else 0) * d,
              active := true }
       else if s.active = true
              ∧ s.signal * (1 - d) + (if read s.data.pin then 1 else 0) * d > 99/100
       then { s with
              signal := s.signal * (1 - d) + (if read s.data.pin then 1 else 0) * d,
              active := false }
       else { s with signal := s.signal * (1 - d) + (if read s.data.pin then 1 else 0) * d },
       if s.active = false ∧ s.signal * (1 - d) + (if read s.data.pin then 1 else 0) * d < 1/2
       then ["<Q" ++ toString s.data.snum ++ ">"]
       else []) := by
  unfold checkOne
  cases hact : s.active <;>
    by_cases h1 : s.signal * (1 - d) + (if read s.data.pin then 1 else 0) * d < 1/2 <;>
    by_cases h2 : s.signal * (1 - d) + (if read s.data.pin then 1 else 0) * d > 99/100 <;>
    simp [hact, h1, h2] <;> split_ifs <;> rfl

theorem checkOne_high (d : ℚ) (snum pin pullUp : Int) :
    checkOne d (fun _ => true) (mkSensor snum pin pullUp) = (mkSensor snum pin pullUp, []) := by
  rw [checkOne_cases]
  have hsig : (mkSensor snum pin pullUp).signal * (1 - d)
      + (if (fun _ : Int => true) (mkSensor snum pin pullUp).data.pin then (1:ℚ) else 0) * d
      = 1 := by
    simp [mkSensor]
  rw [hsig]
  norm_num [mkSensor]

theorem ticksState_high (d : ℚ) (snum pin pullUp : Int) (n : Nat) :
    ticksState d (fun _ => true) (mkSensor snum pin pullUp) n = mkSensor snum pin pullUp := by
  induction n with
  | zero => rfl
  | succ k ih =>
    show (checkOne d (fun _ => true) (ticksState d (fun _ => true) (mkSensor snum pin pullUp) k)).1
        = mkSensor snum pin pullUp
    rw [ih, checkOne_high]

theorem tickOut_high (d : ℚ) (snum pin pullUp : Int) (n : Nat) :
    tickOut d (fun _ => true) (mkSensor snum pin pullUp) n = [] := by
  unfold tickOut
  rw [ticksState_high, checkOne_high]

theorem ticksState_low (d : ℚ) (hd0 : 0 < d) (hd1 : d < 1) (snum pin pullUp : Int) (n : Nat) :
    ticksState d (fun _ => false) (mkSensor snum pin pullUp) n =
      { data := { snum := snum, pin := pin, pullUp := if pullUp = 0 then 0 else 1 },
        signal := (1 - d)^n, active := decide ((1 - d : ℚ)^n < 1/2) } := by
  induction n with
  | zero =>
    have h0 : ¬((1 - d : ℚ)^0 < 1/2) := by norm_num
    simp [ticksState, mkSensor, LOW, HIGH, h0]
    norm_num
  | succ k ih =>
    have hp0 : (0:ℚ) ≤ 1 - d := by linarith
    have hp1 : (1 - d : ℚ) ≤ 1 := by linarith
    have hmono : (1 - d : ℚ)^(k+1) ≤ (1 - d)^k := by
      calc (1 - d : ℚ)^(k+1) = (1 - d)^k * (1 - d) := by ring
        _ ≤ (1 - d)^k * 1 := mul_le_mul_of_nonneg_left hp1 (pow_nonneg hp0 k)
        _ = (1 - d)^k := by ring
    show (checkOne d (fun _ => false)
        (ticksState d (fun _ => false) (mkSensor snum pin pullUp) k)).1 = _
    rw [ih, checkOne_cases]
    have hsig : ((1 - d : ℚ)^k) * (1 - d) + (if False then (1:ℚ) else 0) * d
        = (1 - d)^(k+1) := by
      simp
      ring
    have he2 : (1 - d : ℚ)^k * (1 - d) = (1 - d)^(k+1) := by ring
    by_cases hk : (1 - d : ℚ)^k < 2⁻¹
    · have hk1 : (1 - d : ℚ)^(k+1) < 2⁻¹ := lt_of_le_of_lt hmono hk
      have hF1 : ¬((2:ℚ)⁻¹ ≤ (1 - d)^k) := not_le.mpr hk
      have hno2 : ¬((99:ℚ)/100 < (1 - d)^(k+1)) := by
        intro hc
        have : (1 - d : ℚ)^(k+1) < 1/2 := hk1.trans_le (by norm_num)
        linarith
      simp [he2, hk, hk1, hF1, hno2]
    · have hle : (2:ℚ)⁻¹ ≤ (1 - d)^k := not_lt.mp hk
      by_cases hk1 : (1 - d : ℚ)^(k+1) < 2⁻¹
      · simp [he2, hle, hk, hk1]
      · simp [he2, hle, hk, hk1]

theorem tickOut_low (d : ℚ) (hd0 : 0 < d) (hd1 : d < 1) (snum pin pullUp : Int) (n : Nat) :
    tickOut d (fun _ => false) (mkSensor snum pin pullUp) n =
      (if ¬((1 - d : ℚ)^n < 1/2) ∧ (1 - d : ℚ)^(n+1) < 1/2
       then ["<Q" ++ toString snum ++ ">"] else []) := by
  unfold tickOut
  rw [ticksState_low d hd0 hd1 snum pin pullUp n, checkOne_cases]
  have he2 : (1 - d : ℚ)^n * (1 - d) = (1 - d)^(n+1) := by ring
  by_cases hk : (1 - d : ℚ)^n < 2⁻¹
  · have hF1 : ¬((2:ℚ)⁻¹ ≤ (1 - d)^n) := not_le.mpr hk
    simp [he2, hk, hF1]
  · have hle : (2:ℚ)⁻¹ ≤ (1 - d)^n := not_lt.mp hk
    by_cases hk1 : (1 - d : ℚ)^(n+1) < 2⁻¹
    · simp [he2, hle, hk, hk1]
    · simp [he2, hle, hk, hk1]

theorem checkOne_fst_data (d : ℚ) (read : Int → Bool) (s : Sensor) :
    ((checkOne d read s).1).data = s.data := by
  rw [checkOne_cases]
  split_ifs <;> rfl

theorem check_fst_data (d : ℚ) (read : Int → Bool) (r : Registry) :
    ((check d read r).1).map (fun s => s.data) = r.map (fun s => s.data) := by
  induction r with
  | nil => rfl
  | cons s rest ih =>
    simp only [check, List.map_cons, checkOne_fst_data, ih]

theorem ids_check (d : ℚ) (read : Int → Bool) (r : Registry) :
    ids (check d read r).1 = ids r := by
  have h1 := congrArg (fun l => l.map (fun dr : SensorData => dr.snum))
    (check_fst_data d read r)
  simpa [ids, List.map_map, Function.comp] using h1

theorem pullUpNormalized_check (d : ℚ) (read : Int → Bool) (r : Registry)
    (h : pullUpNormalized r) : pullUpNormalized (check d read r).1 := by
  intro s hs
  have hmem : s.data ∈ r.map (fun t => t.data) := by
    rw [← check_fst_data d read r]
    exact List.mem_map_of_mem (fun t => t.data) hs
  obtain ⟨t, ht, hteq⟩ := List.mem_map.mp hmem
  rcases h t ht with h0 | h0
  · exact Or.inl (by rw [← hteq]; exact h0)
  · exact Or.inr (by rw [← hteq]; exact h0)

theorem foldl_applyOpT_inv (ops : List OpT) : ∀ r : Registry,
    (ids r).Nodup ∧ pullUpNormalized r →
    (ids (ops.foldl applyOpT r)).Nodup ∧ pullUpNormalized (ops.foldl applyOpT r) := by
  induction ops with
  | nil => exact fun r h => h
  | cons op rest ih =>
    intro r h
    refine ih (applyOpT r op) ?_
    cases op with
    | cre a snum pin pullUp v =>
      exact ⟨nodup_ids_createA a r snum pin pullUp v h.1,
        pullUpNormalized_createA a r snum pin pullUp v h.2⟩
    | rem n =>
      exact ⟨nodup_ids_remove r n h.1, pullUpNormalized_remove r n h.2⟩
    | chk d read =>
      exact ⟨(ids_check d read r).symm ▸ h.1, pullUpNormalized_check d read r h.2⟩

theorem runT_nodup_norm (ops : List OpT) :
    (ids (runT ops)).Nodup ∧ pullUpNormalized (runT ops) :=
  foldl_applyOpT_inv ops [] ⟨by simp [ids], fun x hx => by simp at hx⟩

/-! ## Claim theorems -/

/-- C1 counterexample: create([], 5, 2, pullUp := 2, v := 0) appends a node
whose pullUp field is 1 — Sensor::create stores (pullUp==0 ? LOW : HIGH),
not the supplied argument — so "appended ... with that id, pin, pullUp"
fails at pullUp = 2. -/
theorem C1_counterexample :
    (create [] 5 2 2 0).reg ≠ [] ∧
    ∀ s ∈ (create [] 5 2 2 0).reg, s.data.pullUp ≠ 2 := by decide

/-- C1 (amended): create(id, pin, pullUp, v) is an in-place upsert.  If an
entry with the id exists, no node is added: the first matching node is
replaced by one with the new pin, the 0/1-normalized pullUp (0 when the
argument is 0, else 1, hence equal to the argument whenever it is 0 or 1)
and reset filter state {signal = 1.0, active = false}, and the registry's
id sequence and length are unchanged.  If no entry exists, exactly one
such node is appended at the end. -/
theorem C1_create_upsert (r : Registry) (snum pin pullUp v : Int) :
    (snum ∈ ids r →
      ∃ l1 e l2, r = l1 ++ e :: l2 ∧ e.data.snum = snum ∧ snum ∉ ids l1 ∧
        (create r snum pin pullUp v).reg =
          l1 ++ ({ data := { snum := snum, pin := pin, pullUp := if pullUp = 0 then 0 else 1 },
                   signal := 1, active := false } : Sensor) :: l2 ∧
        ids (create r snum pin pullUp v).reg = ids r ∧
        (create r snum pin pullUp v).reg.length = r.length) ∧
    (snum ∉ ids r →
      (create r snum pin pullUp v).reg =
        r ++ [({ data := { snum := snum, pin := pin, pullUp := if pullUp = 0 then 0 else 1 },
                 signal := 1, active := false } : Sensor)]) := by
  constructor
  · intro h
    obtain ⟨l1, e, l2, hr, he, hnl1, hreg⟩ := create_reg_of_mem r snum pin pullUp v h
    refine ⟨l1, e, l2, hr, he, hnl1, ?_, ids_create_of_mem r snum pin pullUp v h, ?_⟩
    · rw [hreg]
      simp [mkSensor, LOW, HIGH]
    · rw [hreg, hr]
      simp
  · intro h
    rw [create_reg_of_not_mem r snum pin pullUp v h]
    simp [mkSensor, LOW, HIGH]

/-- C1 witness: both branches of the upsert at concrete inputs. -/
theorem C1_create_upsert_witness :
    (∃ l1 e l2, (create [] 5 2 0 0).reg = l1 ++ e :: l2 ∧ e.data.snum = 5 ∧ (5:Int) ∉ ids l1 ∧
        (create (create [] 5 2 0 0).reg 5 3 1 0).reg =
          l1 ++ ({ data := { snum := 5, pin := 3, pullUp := if (1:Int) = 0 then 0 else 1 },
                   signal := 1, active := false } : Sensor) :: l2 ∧
        ids (create (create [] 5 2 0 0).reg 5 3 1 0).reg = ids (create [] 5 2 0 0).reg ∧
        (create (create [] 5 2 0 0).reg 5 3 1 0).reg.length = (create [] 5 2 0 0).reg.length) ∧
    (create [] 7 3 1 0).reg =
      [] ++ [({ data := { snum := 7, pin := 3, pullUp := if (1:Int) = 0 then 0 else 1 },
                signal := 1, active := false } : Sensor)] :=
  ⟨(C1_create_upsert (create [] 5 2 0 0).reg 5 3 1 0).1 (by decide),
   (C1_create_upsert [] 7 3 1 0).2 (by decide)⟩

/-- C2: after any finite sequence of create and remove operations starting
from the empty registry, the live ids are pairwise distinct.  Every
intermediate state of a longer sequence is the final state of its prefix,
so this statement covers every observation point. -/
theorem C2_ids_unique (ops : List Op) : (ids (run ops)).Nodup :=
  (run_nodup_norm ops).1

/-- C5: remove(n) on an id that is present unlinks exactly the (first,
and by the uniqueness invariant only) matching node, keeps all other
nodes in their relative order, and prints the success token; on an absent
id it leaves the registry untouched and prints the failure token. -/
theorem C5_remove_found_or_not (r : Registry) (n : Int) :
    (n ∈ ids r →
      ∃ l1 e l2, r = l1 ++ e :: l2 ∧ e.data.snum = n ∧ n ∉ ids l1 ∧
        remove r n = (l1 ++ l2, ["<O>"])) ∧
    (n ∉ ids r → remove r n = (r, ["<X>"])) :=
  ⟨remove_of_mem r n, remove_of_not_mem r n⟩

/-- C5 witness: removing id 5 from a one-entry registry succeeds; removing
id 7 from it fails and changes nothing. -/
theorem C5_remove_witness :
    (∃ l1 e l2, (create [] 5 2 0 0).reg = l1 ++ e :: l2 ∧ e.data.snum = 5 ∧ (5:Int) ∉ ids l1 ∧
        remove (create [] 5 2 0 0).reg 5 = (l1 ++ l2, ["<O>"])) ∧
    remove (create [] 5 2 0 0).reg 7 = ((create [] 5 2 0 0).reg, ["<X>"]) :=
  ⟨(C5_remove_found_or_not (create [] 5 2 0 0).reg 5).1 (by decide),
   (C5_remove_found_or_not (create [] 5 2 0 0).reg 7).2 (by decide)⟩

/-- C7 counterexample: after create([], 1, 4, pullUp := 5, v := 0), lookup
of id 1 returns a node whose pullUp field is 1, not the supplied 5. -/
theorem C7_counterexample :
    (get (create [] 1 4 5 0).reg 1).map (fun s => s.data.pullUp) = some 1 ∧
    (1 : Int) ≠ 5 := by decide

/-- C7 (amended): create followed immediately by lookup of the same id
returns a node whose pin equals the supplied pin exactly, whose pullUp
field is the 0/1 normalization of the supplied pullUp (equal to it
whenever the argument is 0 or 1), and whose filter state is
{signal = 1.0, active = false}. -/
theorem C7_create_then_lookup (r : Registry) (snum pin pullUp v : Int) :
    get (create r snum pin pullUp v).reg snum =
      some { data := { snum := snum, pin := pin, pullUp := if pullUp = 0 then 0 else 1 },
             signal := 1, active := false } := by
  have h := get_create_self r snum pin pullUp v
  simpa [mkSensor, LOW, HIGH] using h

/-- C8: when the needed calloc fails (which can only happen on the
empty-registry and append paths), create leaves the registry exactly as
it was, performs no hardware configuration, returns NULL, and prints the
failure token exactly when v = 1. -/
theorem C8_alloc_failure (r : Registry) (snum pin pullUp v : Int)
    (h : r = [] ∨ get r snum = none) :
    createA false r snum pin pullUp v =
      { reg := r, ret := none, out := if v = 1 then ["<X>"] else [], hw := [] } := by
  unfold createA
  rcases h with h | h
  · simp [h]
  · by_cases hnil : r = []
    · simp [hnil]
    · simp [hnil, h]

/-- C8 witness: a failed verbose create on the empty registry prints the
failure token; a failed non-verbose append-path create prints nothing;
both leave the registry unchanged with no hardware calls. -/
theorem C8_alloc_failure_witness :
    createA false [] 1 2 3 1 = { reg := [], ret := none, out := ["<X>"], hw := [] } ∧
    createA false [mkSensor 5 2 0] 7 3 1 0 =
      { reg := [mkSensor 5 2 0], ret := none, out := [], hw := [] } :=
  ⟨by simpa using C8_alloc_failure [] 1 2 3 1 (Or.inl rfl),
   by simpa using C8_alloc_failure [mkSensor 5 2 0] 7 3 1 0 (Or.inr (by decide))⟩

/-- C10: show() on the empty registry prints the single failure token
"<X>"; on a non-empty registry it prints one "<Q id pin pullUp>" token
per node in chain order and leaves every node untouched. -/
theorem C10_show_enumerate (r : Registry) :
    (r = [] → showSensors r = ([], ["<X>"])) ∧
    (r ≠ [] → showSensors r =
      (r, r.map (fun s => "<Q" ++ toString s.data.snum ++ " " ++ toString s.data.pin
        ++ " " ++ toString s.data.pullUp ++ ">"))) := by
  constructor
  · intro h
    subst h
    rfl
  · intro h
    cases r with
    | nil => exact absurd rfl h
    | cons s rest => rfl

/-- C10 witness: the empty registry reports the failure token; a one-entry
registry is enumerated as a single record token. -/
theorem C10_show_witness :
    showSensors [] = ([], ["<X>"]) ∧
    showSensors (create [] 5 2 0 0).reg =
      ((create [] 5 2 0 0).reg,
       (create [] 5 2 0 0).reg.map (fun s =>
         "<Q" ++ toString s.data.snum ++ " " ++ toString s.data.pin ++ " "
           ++ toString s.data.pullUp ++ ">")) :=
  ⟨(C10_show_enumerate []).1 rfl,
   (C10_show_enumerate (create [] 5 2 0 0).reg).2 (by decide)⟩

/-- C3: one tick of Sensor::check updates every entry's filteredSignal to
signal*(1-DECAY) + raw*DECAY (raw = 1 when the pin reads high, 0 when
low); then an inactive entry whose new signal is below 0.5 becomes active
and contributes exactly one "<Q id>" notification, an active entry whose
new signal is above 0.99 silently becomes inactive, and any other entry
keeps its activation state.  The tick's whole output is exactly the
notifications of the entries that became active — nothing else is ever
emitted. -/
theorem C3_debounce_tick (d : ℚ) (read : Int → Bool) (r : Registry) :
    check d read r =
      (r.map (fun s =>
         if s.active = false ∧ s.signal * (1 - d) + (if read s.data.pin then 1 else 0) * d < 1/2
         then { s with
                signal := s.signal * (1 - d) + (if read s.data.pin then 1 else 0) * d,
                active := true }
         else if s.active = true
                ∧ s.signal * (1 - d) + (if read s.data.pin then 1 else 0) * d > 99/100
         then { s with
                signal := s.signal * (1 - d) + (if read s.data.pin then 1 else 0) * d,
                active := false }
         else { s with signal := s.signal * (1 - d) + (if read s.data.pin then 1 else 0) * d }),
       r.filterMap (fun s =>
         if s.active = false ∧ s.signal * (1 - d) + (if read s.data.pin then 1 else 0) * d < 1/2
         then some ("<Q" ++ toString s.data.snum ++ ">")
         else none)) := by
  induction r with
  | nil => rfl
  | cons s rest ih =>
    simp only [check, checkOne_cases, List.map_cons, List.filterMap_cons, ih]
    split_ifs with h1 h2 <;> simp

/-- C4: for every registry state the program can reach — any interleaving
of create calls (allocation success or failure), remove calls and
Sensor::check ticks, so in particular states whose filter fields are not
the initial values — store followed by load (with the record count store
wrote to the shared header) into an empty registry over an empty
non-volatile region reproduces the (id, pin, pullUp) tuples in the
original order, and every reconstructed node carries the initial filter
state {signal = 1.0, active = false} regardless of the filter state
before store. -/
theorem C4_store_load_roundtrip (ops : List OpT) :
    enumerate (load [] (store (runT ops)).2 (store (runT ops)).1) = enumerate (runT ops) ∧
    ∀ s ∈ load [] (store (runT ops)).2 (store (runT ops)).1,
      s.signal = 1 ∧ s.active = false := by
  obtain ⟨hnd, hnorm⟩ := runT_nodup_norm ops
  have hdisj : ∀ dr ∈ (runT ops).map (fun s => s.data), dr.snum ∉ ids ([] : Registry) := by
    intro dr _ hc
    simp [ids] at hc
  have hnd2 : (((runT ops).map (fun s => s.data)).map (fun dr => dr.snum)).Nodup := by
    rw [List.map_map]
    simpa [ids, Function.comp] using hnd
  have hload : load [] (store (runT ops)).2 (store (runT ops)).1 =
      [] ++ ((runT ops).map (fun s => s.data)).map
        (fun dr => mkSensor dr.snum dr.pin dr.pullUp) := by
    have hlen : (store (runT ops)).2 = ((runT ops).map (fun s => s.data)).length := by
      simp [store]
    rw [show (store (runT ops)).1 = (runT ops).map (fun s => s.data) from rfl, hlen]
    exact load_append ((runT ops).map (fun s => s.data)) [] hdisj hnd2
  rw [hload]
  constructor
  · simp only [List.nil_append, List.map_map, enumerate]
    apply List.map_congr_left
    intro s hs
    rcases hnorm s hs with h | h <;> simp [mkSensor, LOW, HIGH, Function.comp, h]
  · intro s hs
    simp only [List.nil_append, List.map_map, List.mem_map, Function.comp] at hs
    obtain ⟨t, _, rfl⟩ := hs
    simp [mkSensor]

/-- C4 witness: two sensors created and then fed two low debounce ticks,
leaving a pre-store filter state of signal = 1/4 and active = true on
both nodes — not the initial values — after which the round trip still
reproduces the tuples and resets the filter state. -/
theorem C4_store_load_roundtrip_witness :
    (runT [OpT.cre true 5 2 0 0, OpT.cre true 7 3 1 0,
        OpT.chk (1/2) (fun _ => false), OpT.chk (1/2) (fun _ => false)]).map
      (fun s => (s.signal, s.active)) = [(1/4, true), (1/4, true)] ∧
    (enumerate (load []
        (store (runT [OpT.cre true 5 2 0 0, OpT.cre true 7 3 1 0,
          OpT.chk (1/2) (fun _ => false), OpT.chk (1/2) (fun _ => false)])).2
        (store (runT [OpT.cre true 5 2 0 0, OpT.cre true 7 3 1 0,
          OpT.chk (1/2) (fun _ => false), OpT.chk (1/2) (fun _ => false)])).1)
      = enumerate (runT [OpT.cre true 5 2 0 0, OpT.cre true 7 3 1 0,
          OpT.chk (1/2) (fun _ => false), OpT.chk (1/2) (fun _ => false)]) ∧
     ∀ s ∈ load []
        (store (runT [OpT.cre true 5 2 0 0, OpT.cre true 7 3 1 0,
          OpT.chk (1/2) (fun _ => false), OpT.chk (1/2) (fun _ => false)])).2
        (store (runT [OpT.cre true 5 2 0 0, OpT.cre true 7 3 1 0,
          OpT.chk (1/2) (fun _ => false), OpT.chk (1/2) (fun _ => false)])).1,
       s.signal = 1 ∧ s.active = false) :=
  ⟨by norm_num [runT, applyOpT, createA, create, mkSensor, BaseStation.get, check, checkOne,
      LOW, HIGH, List.foldl, List.find?],
   C4_store_load_roundtrip [OpT.cre true 5 2 0 0, OpT.cre true 7 3 1 0,
     OpT.chk (1/2) (fun _ => false), OpT.chk (1/2) (fun _ => false)]⟩

/-- C6: starting from the initial filter state, a constant high raw signal
keeps filteredSignal at 1.0 forever (hence it trivially converges to 1.0)
and never emits a notification; a constant low raw signal makes
filteredSignal converge to 0.0, emits the single "<Q id>" notification at
exactly the tick where filteredSignal first drops below 0.5, and never
emits on any other tick. -/
theorem C6_constant_feed (d : ℚ) (hd0 : 0 < d) (hd1 : d < 1) (snum pin pullUp : Int) :
    ((∀ n, (ticksState d (fun _ => true) (mkSensor snum pin pullUp) n).signal = 1) ∧
     (∀ n, tickOut d (fun _ => true) (mkSensor snum pin pullUp) n = [])) ∧
    ((∀ ε : ℚ, 0 < ε → ∃ N, ∀ n, N ≤ n →
        |(ticksState d (fun _ => false) (mkSensor snum pin pullUp) n).signal| < ε) ∧
     ∃ N, tickOut d (fun _ => false) (mkSensor snum pin pullUp) N
            = ["<Q" ++ toString snum ++ ">"] ∧
       (∀ k, k ≠ N → tickOut d (fun _ => false) (mkSensor snum pin pullUp) k = []) ∧
       (ticksState d (fun _ => false) (mkSensor snum pin pullUp) (N+1)).signal < 1/2 ∧
       (∀ k, k ≤ N →
         ¬ (ticksState d (fun _ => false) (mkSensor snum pin pullUp) k).signal < 1/2)) := by
  have hp0 : (0:ℚ) ≤ 1 - d := by linarith
  have hp1 : (1 - d : ℚ) < 1 := by linarith
  have hsig : ∀ n,
      (ticksState d (fun _ => false) (mkSensor snum pin pullUp) n).signal = (1 - d)^n := by
    intro n
    rw [ticksState_low d hd0 hd1 snum pin pullUp n]
  refine ⟨⟨fun n => by rw [ticksState_high]; rfl, fun n => tickOut_high d snum pin pullUp n⟩,
    ?_, ?_⟩
  · intro ε hε
    obtain ⟨N, hN⟩ := exists_pow_lt_of_lt_one hε hp1
    refine ⟨N, fun n hn => ?_⟩
    rw [hsig n, abs_of_nonneg (pow_nonneg hp0 n)]
    exact lt_of_le_of_lt (pow_le_pow_of_le_one hp0 (le_of_lt hp1) hn) hN
  · have hex : ∃ n, (1 - d : ℚ)^n < 1/2 := exists_pow_lt_of_lt_one (by norm_num) hp1
    have hspec : (1 - d : ℚ)^(Nat.find hex) < 1/2 := Nat.find_spec hex
    have hmin : ∀ m, m < Nat.find hex → ¬((1 - d : ℚ)^m < 1/2) :=
      fun m hm => Nat.find_min hex hm
    have hNp0 : Nat.find hex ≠ 0 := by
      intro hc
      rw [hc, pow_zero] at hspec
      norm_num at hspec
    obtain ⟨N, hN⟩ : ∃ N, Nat.find hex = N + 1 :=
      ⟨Nat.find hex - 1, (Nat.succ_pred_eq_of_pos (Nat.pos_of_ne_zero hNp0)).symm⟩
    refine ⟨N, ?_, ?_, ?_, ?_⟩
    · rw [tickOut_low d hd0 hd1 snum pin pullUp N]
      apply if_pos
      exact ⟨hmin N (by omega), by rw [← hN]; exact hspec⟩
    · intro k hk
      rw [tickOut_low d hd0 hd1 snum pin pullUp k]
      apply if_neg
      rintro ⟨h1, h2⟩
      by_cases hklt : k < N
      · exact (hmin (k+1) (by omega)) h2
      · have hge : Nat.find hex ≤ k := by omega
        exact h1 (lt_of_le_of_lt (pow_le_pow_of_le_one hp0 (le_of_lt hp1) hge) hspec)
    · rw [hsig, ← hN]
      exact hspec
    · intro k hk
      rw [hsig]
      exact hmin k (by omega)

/-- C6 witness: the constant-feed behavior at DECAY = 1/2 for sensor id 5
on pin 2. -/
theorem C6_constant_feed_witness :
    (0:ℚ) < 1/2 ∧ (1/2:ℚ) < 1 ∧
    (((∀ n, (ticksState (1/2) (fun _ => true) (mkSensor 5 2 0) n).signal = 1) ∧
      (∀ n, tickOut (1/2) (fun _ => true) (mkSensor 5 2 0) n = [])) ∧
     ((∀ ε : ℚ, 0 < ε → ∃ N, ∀ n, N ≤ n →
         |(ticksState (1/2) (fun _ => false) (mkSensor 5 2 0) n).signal| < ε) ∧
      ∃ N, tickOut (1/2) (fun _ => false) (mkSensor 5 2 0) N
             = ["<Q" ++ toString (5:Int) ++ ">"] ∧
        (∀ k, k ≠ N → tickOut (1/2) (fun _ => false) (mkSensor 5 2 0) k = []) ∧
        (ticksState (1/2) (fun _ => false) (mkSensor 5 2 0) (N+1)).signal < 1/2 ∧
        (∀ k, k ≤ N →
          ¬ (ticksState (1/2) (fun _ => false) (mkSensor 5 2 0) k).signal < 1/2))) :=
  ⟨by norm_num, by norm_num, C6_constant_feed (1/2) (by norm_num) (by norm_num) 5 2 0⟩

/-- C9 counterexample: the string "abc" tokenizes to one non-integer token,
so sscanf converts 0 integers and returns 0 — but Sensor::parse's switch
has no case 0, so nothing is enumerated (show would have printed the
registry's record token).  The claim "0 integers performs enumeration"
fails. -/
theorem C9_counterexample :
    scanCount [(none : Option Int)] = 0 ∧
    parse (create [] 5 2 0 0).reg [none] = ((create [] 5 2 0 0).reg, []) ∧
    showSensors (create [] 5 2 0 0).reg ≠ ((create [] 5 2 0 0).reg, []) := by
  refine ⟨by decide, by decide, by decide⟩

/-- C9 (amended): parse dispatches on the sscanf return value: 3 converted
integers perform create/overwrite (verbose); exactly 1 performs remove;
an input with no tokens at all (sscanf returns EOF = -1) performs
enumeration; exactly 2 performs no registry operation and reports the
failure token; an input that has tokens but converts 0 integers matches
no switch case, so it performs no operation and emits nothing. -/
theorem C9_parse_dispatch (r : Registry) (toks : List (Option Int)) :
    (scanCount toks = 3 → ∃ n s m rest2, leadingInts toks = n :: s :: m :: rest2 ∧
      parse r toks = ((create r n s m 1).reg, (create r n s m 1).out)) ∧
    (scanCount toks = 1 → ∃ n, leadingInts toks = [n] ∧ parse r toks = remove r n) ∧
    (scanCount toks = -1 → toks = [] ∧ parse r toks = showSensors r) ∧
    (scanCount toks = 2 → parse r toks = (r, ["<X>"])) ∧
    (scanCount toks = 0 → parse r toks = (r, [])) := by
  refine ⟨?_, ?_, ?_, ?_, ?_⟩
  · intro h
    have hmin : min (((leadingInts toks).length : Int)) 3 = 3 := by
      cases toks with
      | nil => simp [scanCount] at h
      | cons a t => exact h
    have hlen : 3 ≤ (leadingInts toks).length := by
      exact_mod_cast min_eq_right_iff.mp hmin
    rcases hl : leadingInts toks with _ | ⟨n, _ | ⟨s, _ | ⟨m, rest2⟩⟩⟩
    · rw [hl] at hlen
      simp at hlen
    · rw [hl] at hlen
      simp at hlen
    · rw [hl] at hlen
      simp at hlen
    · refine ⟨n, s, m, rest2, rfl, ?_⟩
      simp [parse, h, hl]
  · intro h
    have hmin : min (((leadingInts toks).length : Int)) 3 = 1 := by
      cases toks with
      | nil => simp [scanCount] at h
      | cons a t => exact h
    have hlen : (leadingInts toks).length = 1 := by
      rcases le_or_lt (((leadingInts toks).length : Int)) 3 with hle | hlt
      · rw [min_eq_left hle] at hmin
        exact_mod_cast hmin
      · rw [min_eq_right (le_of_lt hlt)] at hmin
        norm_num at hmin
    rcases hl : leadingInts toks with _ | ⟨n, _ | _⟩
    · rw [hl] at hlen
      simp at hlen
    · refine ⟨n, rfl, ?_⟩
      simp [parse, h, hl]
    · rw [hl] at hlen
      simp at hlen
  · intro h
    cases toks with
    | nil => exact ⟨rfl, by simp [parse, scanCount]⟩
    | cons a t =>
      exfalso
      have h0 : (0:Int) ≤ scanCount (a :: t) :=
        le_min (Int.ofNat_nonneg _) (by norm_num)
      omega
  · intro h
    simp [parse, h]
  · intro h
    simp [parse, h]

/-- C9 witness: one integer dispatches remove; two integers report the
failure token without touching the registry. -/
theorem C9_parse_witness :
    (∃ n, leadingInts [some 7] = [n] ∧ parse [] [some 7] = remove [] n) ∧
    parse [] [some 1, some 2] = ([], ["<X>"]) :=
  ⟨(C9_parse_dispatch [] [some 7]).2.1 (by decide),
   (C9_parse_dispatch [] [some 1, some 2]).2.2.2.1 (by decide)⟩

end BaseStation
